import Mathlib

/-!
Verification development for the 50-Watt LDMOS amplifier controller
(`control.py`, `swr_calc.py`, `thermistor.py`).

Shallow embedding conventions:
* float telemetry and thresholds are modelled over `ℚ` (exact arithmetic),
  except the SWR computation which needs a square root and is modelled over `ℝ`;
* `utime.ticks_diff(now, start)` is modelled as integer subtraction `now - start`;
* Python dict `.get(key, default)` on telemetry is modelled as `Option.getD`;
* a raw GPIO level is a `Nat` (the code compares it with 0 and 1);
* Python code that can raise (the thermistor interpolator's unguarded division)
  returns `Option`, with `none` standing for the exception.
-/

namespace LDMosAmp

/-- Configuration constants read by `AmpControl` (`config.py`). -/
structure Cfg where
  RESET_ACTIVE_LOW : Bool
  RESET_DEBOUNCE_MS : Int
  PROTECT_VDRAIN_MAX_V : ℚ
  PROTECT_IDRAIN_MAX_A : ℚ
  PROTECT_MIN_I_FOR_EFF_A : ℚ
  PROTECT_MIN_TOTAL_POWER_W : ℚ
  PROTECT_FWD_MIN_FRACTION : ℚ
  PROTECT_TEMP_MAX_C : ℚ
  PROTECT_TRIP_DEBOUNCE_MS : Int
  PROTECT_THERM_DEBOUNCE_MS : Int
  deriving DecidableEq

/-- A telemetry snapshot: a dict whose keys may each be missing.
`temp_c` missing is `telemetry.get("temp_c", None) is None`. -/
structure Telemetry where
  vDrain : Option ℚ
  iDrain : Option ℚ
  vcc : Option ℚ
  pfwd_w : Option ℚ
  temp_c : Option ℚ
  deriving DecidableEq

/-- The mutable fields of `AmpControl` (`control.py` constructor).
`_btn_last_change_ms` is only ever read after `_btn_last_level` has been set,
so it is kept as a plain `Int`. -/
structure AmpState where
  amp_enabled : Bool
  tripped : Bool
  last_reason : String
  fault_start_ms : Option Int
  therm_start_ms : Option Int
  btn_last_level : Option Nat
  btn_last_change_ms : Int
  btn_press_consumed : Bool
  deriving DecidableEq

/-- The dict returned by `AmpControl.update`. -/
structure Decision where
  disable : Bool
  amp_enabled : Bool
  tripped : Bool
  reason : String
  deriving DecidableEq

/-- `AmpControl._btn_is_pressed`. -/
def btn_is_pressed (cfg : Cfg) (level : Nat) : Bool :=
  if cfg.RESET_ACTIVE_LOW then level == 0 else level == 1

/-- `AmpControl._fault_reason` (`control.py` lines 41-59).
The thermal check written after the unconditional `return False, "OK"`
(lines 61-66) is unreachable and therefore not part of the function's
behaviour; it is omitted here. -/
def fault_reason (cfg : Cfg) (t : Telemetry) : Bool × String :=
  let v_drain := t.vDrain.getD 0
  let i_drain := t.iDrain.getD 0
  let vcc := t.vcc.getD 0
  let pfwd := t.pfwd_w.getD 0
  if cfg.PROTECT_VDRAIN_MAX_V < v_drain then (true, "VDRAIN_OV")
  else if cfg.PROTECT_IDRAIN_MAX_A < i_drain then (true, "IDRAIN_OC")
  else
    let total_p := vcc * i_drain
    if cfg.PROTECT_MIN_I_FOR_EFF_A ≤ i_drain ∧ cfg.PROTECT_MIN_TOTAL_POWER_W ≤ total_p
        ∧ pfwd < cfg.PROTECT_FWD_MIN_FRACTION * total_p then
      (true, "FWD_LOW_VS_VI")
    else (false, "OK")

/-- `AmpControl._debounced_button_event`: returns the updated button-debounce
state together with the event flag (`True` exactly once per debounced press). -/
def debounced_button_event (cfg : Cfg) (s : AmpState) (now_ms : Int) (level : Nat) :
    AmpState × Bool :=
  match s.btn_last_level with
  | none =>
    ({ s with btn_last_level := some level, btn_last_change_ms := now_ms }, false)
  | some last =>
    if level ≠ last then
      ({ s with btn_last_level := some level, btn_last_change_ms := now_ms,
                btn_press_consumed := false }, false)
    else if now_ms - s.btn_last_change_ms < cfg.RESET_DEBOUNCE_MS then
      (s, false)
    else
      let pressed := btn_is_pressed cfg level
      if pressed ∧ ¬ s.btn_press_consumed then
        ({ s with btn_press_consumed := true }, true)
      else if ¬ pressed then
        ({ s with btn_press_consumed := false }, false)
      else
        (s, false)

/-- Step 1 of `AmpControl.update`: electrical protection with fast debounce,
latching on trip (`control.py` lines 111-123). -/
def stepFault (cfg : Cfg) (s : AmpState) (t : Telemetry) (now_ms : Int) : AmpState :=
  let fr := fault_reason cfg t
  if ¬ s.tripped then
    if fr.1 then
      match s.fault_start_ms with
      | none => { s with fault_start_ms := some now_ms }
      | some fs =>
        if cfg.PROTECT_TRIP_DEBOUNCE_MS ≤ now_ms - fs then
          { s with tripped := true, last_reason := fr.2, amp_enabled := false }
        else s
    else { s with fault_start_ms := none }
  else s

/-- Step 2 of `AmpControl.update`: thermal protection with slow debounce
(`control.py` lines 125-140). -/
def stepTherm (cfg : Cfg) (s : AmpState) (t : Telemetry) (now_ms : Int) : AmpState :=
  let overtemp := match t.temp_c with
    | none => false
    | some temp => decide (cfg.PROTECT_TEMP_MAX_C ≤ temp)
  if ¬ s.tripped then
    if overtemp then
      match s.therm_start_ms with
      | none => { s with therm_start_ms := some now_ms }
      | some ts =>
        if cfg.PROTECT_THERM_DEBOUNCE_MS ≤ now_ms - ts then
          { s with tripped := true, last_reason := "THERM_OT", amp_enabled := false }
        else s
    else { s with therm_start_ms := none }
  else { s with therm_start_ms := none }

/-- Step 3 of `AmpControl.update`: the debounced button press either clears the
trip latch (amp stays OFF) or toggles the enable state (`control.py` 142-154). -/
def stepButton (cfg : Cfg) (s : AmpState) (now_ms : Int) (level : Nat) : AmpState :=
  let r := debounced_button_event cfg s now_ms level
  if r.2 then
    if r.1.tripped then
      { r.1 with tripped := false, last_reason := "OK", fault_start_ms := none,
                 therm_start_ms := none, amp_enabled := false }
    else
      { r.1 with amp_enabled := !r.1.amp_enabled }
  else r.1

/-- `AmpControl.update`: runs the three stages in order, then computes the
output dict; `disable` is recomputed, never stored (`control.py` 156-164). -/
def update (cfg : Cfg) (s : AmpState) (t : Telemetry) (now_ms : Int) (level : Nat) :
    AmpState × Decision :=
  let s3 := stepButton cfg (stepTherm cfg (stepFault cfg s t now_ms) t now_ms) now_ms level
  (s3, { disable := !s3.amp_enabled || s3.tripped
         amp_enabled := s3.amp_enabled
         tripped := s3.tripped
         reason := if s3.tripped then s3.last_reason else "OK" })

/-- Iterated `update` over a list of (telemetry, timestamp, button level) inputs. -/
def runUpdates (cfg : Cfg) (s : AmpState) : List (Telemetry × Int × Nat) → AmpState
  | [] => s
  | (t, n, b) :: rest => runUpdates cfg (update cfg s t n b).1 rest

/-- Iterated `_debounced_button_event` over timed raw levels, counting events. -/
def runBtn (cfg : Cfg) (s : AmpState) : List (Int × Nat) → AmpState × Nat
  | [] => (s, 0)
  | (n, l) :: rest =>
    let r := debounced_button_event cfg s n l
    let rr := runBtn cfg r.1 rest
    (rr.1, (if r.2 then 1 else 0) + rr.2)

/-! ### Piecewise-linear interpolators (`swr_calc.py` and `thermistor.py`) -/

/-- The segment scan of `PiecewiseLinear.interp` in `swr_calc.py` (lines 29-37):
walk consecutive `(x, y)` pairs, return the interpolation of the first
bracketing segment (with a guard returning `y0` on a degenerate segment),
and fall through to the default (`self.y[-1]`). -/
def scanSeg (xq dflt : ℚ) : List (ℚ × ℚ) → ℚ
  | (x0, y0) :: (x1, y1) :: rest =>
    if x0 ≤ xq ∧ xq ≤ x1 then
      if x1 = x0 then y0
      else y0 + (xq - x0) / (x1 - x0) * (y1 - y0)
    else scanSeg xq dflt ((x1, y1) :: rest)
  | _ => dflt

/-- `PiecewiseLinear.interp` of `swr_calc.py`: clamp below the first knot and
above the last, otherwise scan the segments. -/
def interp (xs ys : List ℚ) (xq : ℚ) : ℚ :=
  if xq ≤ xs.headD 0 then ys.headD 0
  else if xs.getLastD 0 ≤ xq then ys.getLastD 0
  else scanSeg xq (ys.getLastD 0) (xs.zip ys)

/-- The segment scan of `PiecewiseLinear.interp` in `thermistor.py`
(lines 34-39): identical to the one in `swr_calc.py` except that there is no
degenerate-segment guard, so `t = (xq - x0) / (x1 - x0)` raises
`ZeroDivisionError` when `x1 == x0`; that exception is modelled as `none`. -/
def thermScanSeg (xq : ℚ) (dflt : Option ℚ) : List (ℚ × ℚ) → Option ℚ
  | (x0, y0) :: (x1, y1) :: rest =>
    if x0 ≤ xq ∧ xq ≤ x1 then
      if x1 = x0 then none
      else some (y0 + (xq - x0) / (x1 - x0) * (y1 - y0))
    else thermScanSeg xq dflt ((x1, y1) :: rest)
  | _ => dflt

/-- `PiecewiseLinear.interp` of `thermistor.py`. -/
def thermInterp (xs ys : List ℚ) (xq : ℚ) : Option ℚ :=
  if xq ≤ xs.headD 0 then some (ys.headD 0)
  else if xs.getLastD 0 ≤ xq then some (ys.getLastD 0)
  else thermScanSeg xq (some (ys.getLastD 0)) (xs.zip ys)

/-! ### SWR computation and sampling (`swr_calc.py`) -/

/-- The `_DR_SPS` dict of `swr_calc.py`: ADS1115 data-rate code to SPS. -/
def DR_SPS (code : Nat) : Option Nat :=
  ([(0x0000, 8), (0x0020, 16), (0x0040, 32), (0x0060, 64),
    (0x0080, 128), (0x00A0, 250), (0x00C0, 475), (0x00E0, 860)] :
      List (Nat × Nat)).lookup code

/-- The accumulation loop of `SWRCalc.read_avg_volts`: the i-th iteration reads
`f i` on the forward channel and `r i` on the reflected channel. -/
def readLoop (f r : Nat → ℚ) : Nat → ℚ × ℚ
  | 0 => (0, 0)
  | Nat.succ k =>
    let s := readLoop f r k
    (s.1 + f k, s.2 + r k)

/-- `SWRCalc.read_avg_volts` (`swr_calc.py` lines 93-106): sample count from
the SPS and window (`int((sps * window_ms) / 1000)`, modelled as natural
floor division, floored to a minimum of 1), then averages of that many
forward and reflected readings. The ADC is modelled as the two reading
streams `f` and `r`. -/
def read_avg_volts (data_rate : Nat) (f r : Nat → ℚ) (window_ms : Nat) :
    ℚ × ℚ × Nat :=
  let sps := (DR_SPS data_rate).getD 128
  let samples0 := sps * window_ms / 1000
  let samples := if samples0 < 1 then 1 else samples0
  let s := readLoop f r samples
  (s.1 / samples, s.2 / samples, samples)

/-- The sample count as the spec describes it.
Modelled from the spec: "an integer sample count = `round(rate * window_ms /
1000)`, floored to a minimum of 1" (rounding, not truncating). Kept separate
from `read_avg_volts`, which embeds the source, for refinement comparison. -/
def sampleCountSpec (data_rate : Nat) (window_ms : Nat) : Nat :=
  let sps := (DR_SPS data_rate).getD 128
  max 1 (round ((sps * window_ms : ℚ) / 1000)).toNat

/-- `swr_from_powers` (`swr_calc.py` lines 70-82), over `ℝ`;
`none` models the float `+inf`. -/
noncomputable def swr_from_powers (pfwd_w prfl_w : ℝ) : Option ℝ :=
  if pfwd_w ≤ 0 then none
  else
    let prfl := if prfl_w < 0 then 0 else prfl_w
    let ratio := prfl / pfwd_w
    if 1 ≤ ratio then none
    else
      let gamma := Real.sqrt ratio
      let denom := 1 - gamma
      if denom ≤ 0 then none
      else some ((1 + gamma) / denom)

/-- The telemetry snapshot with every missing numeric key replaced by its
default `0.0` (the temperature key keeps its absence). -/
def fillDefaults (t : Telemetry) : Telemetry :=
  { vDrain := some (t.vDrain.getD 0), iDrain := some (t.iDrain.getD 0),
    vcc := some (t.vcc.getD 0), pfwd_w := some (t.pfwd_w.getD 0),
    temp_c := t.temp_c }

/-! ### Helper lemmas -/

theorem fault_reason_cases (cfg : Cfg) (t : Telemetry) :
    fault_reason cfg t ∈
      ([(false, "OK"), (true, "VDRAIN_OV"), (true, "IDRAIN_OC"),
        (true, "FWD_LOW_VS_VI")] : List (Bool × String)) := by
  unfold fault_reason
  dsimp only
  split_ifs <;> simp

theorem fault_reason_not_therm (cfg : Cfg) (t : Telemetry) :
    (fault_reason cfg t).2 ≠ "THERM_OT" := by
  unfold fault_reason
  dsimp only
  split_ifs <;> decide

theorem stepFault_of_tripped (cfg : Cfg) (s : AmpState) (t : Telemetry) (n : Int)
    (h : s.tripped = true) : stepFault cfg s t n = s := by
  unfold stepFault
  simp [h]

theorem stepTherm_of_tripped (cfg : Cfg) (s : AmpState) (t : Telemetry) (n : Int)
    (h : s.tripped = true) : stepTherm cfg s t n = { s with therm_start_ms := none } := by
  unfold stepTherm
  simp [h]

theorem stepFault_tripped_mono (cfg : Cfg) (s : AmpState) (t : Telemetry) (n : Int)
    (h : s.tripped = true) : (stepFault cfg s t n).tripped = true := by
  rw [stepFault_of_tripped cfg s t n h]; exact h

theorem stepFault_last_reason (cfg : Cfg) (s : AmpState) (t : Telemetry) (n : Int) :
    (stepFault cfg s t n).last_reason = s.last_reason ∨
      (stepFault cfg s t n).last_reason = (fault_reason cfg t).2 := by
  unfold stepFault
  dsimp only
  rcases hms : s.fault_start_ms with _ | fs <;>
    (simp only [hms]; split_ifs <;> simp)

theorem stepTherm_last_reason (cfg : Cfg) (s : AmpState) (t : Telemetry) (n : Int) :
    (stepTherm cfg s t n).last_reason = s.last_reason ∨
      ((stepTherm cfg s t n).last_reason = "THERM_OT" ∧ s.tripped = false ∧
        ∃ temp, t.temp_c = some temp ∧ cfg.PROTECT_TEMP_MAX_C ≤ temp) := by
  unfold stepTherm
  dsimp only
  rcases htc : t.temp_c with _ | temp <;> simp only [htc]
  · rcases hms : s.therm_start_ms with _ | ts <;> simp only [hms] <;>
      split_ifs <;> simp_all
  · cases htr : s.tripped
    · rcases hms : s.therm_start_ms with _ | ts <;> simp only [hms, htr] <;>
        split_ifs with hov hdeb <;> simp_all
    · simp [htr]

theorem dbe_preserves (cfg : Cfg) (s : AmpState) (n : Int) (l : Nat) :
    (debounced_button_event cfg s n l).1.amp_enabled = s.amp_enabled ∧
    (debounced_button_event cfg s n l).1.tripped = s.tripped ∧
    (debounced_button_event cfg s n l).1.last_reason = s.last_reason ∧
    (debounced_button_event cfg s n l).1.fault_start_ms = s.fault_start_ms ∧
    (debounced_button_event cfg s n l).1.therm_start_ms = s.therm_start_ms := by
  unfold debounced_button_event
  rcases hbl : s.btn_last_level with _ | last <;> simp [hbl]
  split_ifs <;> simp

theorem dbe_event_pressed (cfg : Cfg) (s : AmpState) (n : Int) (l : Nat)
    (h : (debounced_button_event cfg s n l).2 = true) : btn_is_pressed cfg l = true := by
  unfold debounced_button_event at h
  rcases hbl : s.btn_last_level with _ | last <;> simp [hbl] at h
  split_ifs at h with h1 h2 h3 h4
  all_goals simp_all

theorem stepButton_last_reason (cfg : Cfg) (s : AmpState) (n : Int) (l : Nat) :
    (stepButton cfg s n l).last_reason = s.last_reason ∨
      (stepButton cfg s n l).last_reason = "OK" := by
  unfold stepButton
  dsimp only
  split_ifs <;> simp [(dbe_preserves cfg s n l).2.2.1]

theorem dbe_same_consumed (cfg : Cfg) (s : AmpState) (n : Int) (l : Nat)
    (h1 : s.btn_last_level = some l) (h2 : s.btn_press_consumed = true)
    (h3 : btn_is_pressed cfg l = true) :
    debounced_button_event cfg s n l = (s, false) := by
  unfold debounced_button_event
  rw [h1]
  dsimp only
  split_ifs <;> simp_all

theorem dbe_change (cfg : Cfg) (s : AmpState) (n : Int) (l l0 : Nat)
    (h1 : s.btn_last_level = some l0) (h : l ≠ l0) :
    debounced_button_event cfg s n l =
      ({ s with btn_last_level := some l, btn_last_change_ms := n,
                btn_press_consumed := false }, false) := by
  unfold debounced_button_event
  rw [h1]
  dsimp only
  rw [if_pos h]

theorem dbe_short (cfg : Cfg) (s : AmpState) (n : Int) (l : Nat)
    (h1 : s.btn_last_level = some l)
    (h2 : n - s.btn_last_change_ms < cfg.RESET_DEBOUNCE_MS) :
    debounced_button_event cfg s n l = (s, false) := by
  unfold debounced_button_event
  rw [h1]
  dsimp only
  rw [if_neg (by simp), if_pos h2]

theorem dbe_fire (cfg : Cfg) (s : AmpState) (n : Int) (l : Nat)
    (h1 : s.btn_last_level = some l)
    (h2 : cfg.RESET_DEBOUNCE_MS ≤ n - s.btn_last_change_ms)
    (h3 : btn_is_pressed cfg l = true) (h4 : s.btn_press_consumed = false) :
    debounced_button_event cfg s n l = ({ s with btn_press_consumed := true }, true) := by
  unfold debounced_button_event
  rw [h1]
  dsimp only
  rw [if_neg (by simp), if_neg (not_lt.mpr h2), if_pos (by simp [h3, h4])]

theorem runBtn_held_consumed (cfg : Cfg) (l : Nat) :
    ∀ (inputs : List (Int × Nat)) (s : AmpState),
      s.btn_last_level = some l → s.btn_press_consumed = true →
      btn_is_pressed cfg l = true → (∀ p ∈ inputs, p.2 = l) →
      runBtn cfg s inputs = (s, 0) := by
  intro inputs
  induction inputs with
  | nil => intro s _ _ _ _; rfl
  | cons p rest ih =>
    intro s h1 h2 h3 hall
    rcases p with ⟨m, l'⟩
    have hl : l' = l := hall (m, l') (List.mem_cons_self _ _)
    subst hl
    show runBtn cfg s ((m, l') :: rest) = (s, 0)
    unfold runBtn
    rw [dbe_same_consumed cfg s m l' h1 h2 h3]
    dsimp only
    rw [ih s h1 h2 h3 (fun q hq => hall q (List.mem_cons_of_mem _ hq))]
    simp

theorem runBtn_waiting (cfg : Cfg) (l : Nat) :
    ∀ (inputs : List (Int × Nat)) (s : AmpState),
      s.btn_last_level = some l → s.btn_press_consumed = false →
      btn_is_pressed cfg l = true → (∀ p ∈ inputs, p.2 = l) →
      (∃ p ∈ inputs, cfg.RESET_DEBOUNCE_MS ≤ p.1 - s.btn_last_change_ms) →
      (runBtn cfg s inputs).2 = 1 := by
  intro inputs
  induction inputs with
  | nil =>
    intro s _ _ _ _ hex
    rcases hex with ⟨p, hp, _⟩
    exact absurd hp (List.not_mem_nil p)
  | cons p rest ih =>
    intro s h1 h2 h3 hall hex
    rcases p with ⟨m, l'⟩
    have hl : l' = l := hall (m, l') (List.mem_cons_self _ _)
    subst hl
    by_cases hdeb : cfg.RESET_DEBOUNCE_MS ≤ m - s.btn_last_change_ms
    · show (runBtn cfg s ((m, l') :: rest)).2 = 1
      unfold runBtn
      rw [dbe_fire cfg s m l' h1 hdeb h3 h2]
      dsimp only
      rw [runBtn_held_consumed cfg l' rest { s with btn_press_consumed := true }
        h1 rfl h3 (fun q hq => hall q (List.mem_cons_of_mem _ hq))]
      simp
    · show (runBtn cfg s ((m, l') :: rest)).2 = 1
      unfold runBtn
      rw [dbe_short cfg s m l' h1 (not_le.mp hdeb)]
      dsimp only
      have hex' : ∃ p ∈ rest, cfg.RESET_DEBOUNCE_MS ≤ p.1 - s.btn_last_change_ms := by
        rcases hex with ⟨q, hq, hqd⟩
        rcases List.mem_cons.mp hq with hq0 | hqr
        · rw [hq0] at hqd
          exact absurd hqd hdeb
        · exact ⟨q, hqr, hqd⟩
      rw [ih s h1 h2 h3 (fun q hq => hall q (List.mem_cons_of_mem _ hq)) hex']
      simp

theorem runBtn_alternating (cfg : Cfg) :
    ∀ (inputs : List (Int × Nat)) (s : AmpState) (l0 : Nat),
      s.btn_last_level = some l0 →
      List.Chain Ne l0 (inputs.map Prod.snd) →
      (runBtn cfg s inputs).2 = 0 := by
  intro inputs
  induction inputs with
  | nil => intro s l0 _ _; rfl
  | cons p rest ih =>
    intro s l0 h1 hch
    rcases p with ⟨m, l⟩
    rw [List.map_cons, List.chain_cons] at hch
    show (runBtn cfg s ((m, l) :: rest)).2 = 0
    unfold runBtn
    rw [dbe_change cfg s m l l0 h1 (Ne.symm hch.1)]
    dsimp only
    have hrec : (runBtn cfg { s with btn_last_level := some l, btn_last_change_ms := m, btn_press_consumed := false } rest).2 = 0 :=
      ih _ l rfl hch.2
    rw [hrec]
    simp

theorem update_tripped_persists (cfg : Cfg) (s : AmpState) (t : Telemetry)
    (n : Int) (b : Nat) (hs : s.tripped = true)
    (hb : btn_is_pressed cfg b = false) :
    (update cfg s t n b).1.tripped = true := by
  have h1 : stepFault cfg s t n = s := stepFault_of_tripped cfg s t n hs
  have h2 : stepTherm cfg s t n = { s with therm_start_ms := none } :=
    stepTherm_of_tripped cfg s t n hs
  have hupd : (update cfg s t n b).1
      = stepButton cfg { s with therm_start_ms := none } n b := by
    unfold update
    dsimp only
    rw [h1, h2]
  rw [hupd]
  have hev : (debounced_button_event cfg { s with therm_start_ms := none } n b).2
      = false := by
    cases hev : (debounced_button_event cfg { s with therm_start_ms := none } n b).2
    · rfl
    · exact absurd (dbe_event_pressed cfg _ n b hev) (by simp [hb])
  unfold stepButton
  dsimp only
  rw [hev]
  simp only [Bool.false_eq_true, if_false]
  rw [(dbe_preserves cfg { s with therm_start_ms := none } n b).2.1]
  exact hs

theorem getLastD_append_cons (a : ℚ) (m : List ℚ) :
    ∀ (l : List ℚ) (d : ℚ), (l ++ a :: m).getLastD d = m.getLastD a := by
  intro l
  induction l with
  | nil => intro d; rw [List.nil_append, List.getLastD_cons]
  | cons x xs ih =>
    intro d
    rw [List.cons_append, List.getLastD_cons]
    exact ih x

theorem getLastD_default_mem (m : List ℚ) : ∀ (a : ℚ), m.getLastD a ∈ a :: m := by
  induction m with
  | nil => intro a; simp [List.getLastD]
  | cons x xs ih =>
    intro a
    rw [List.getLastD_cons]
    rcases List.mem_cons.mp (ih x) with h | h
    · rw [h]
      exact List.mem_cons_of_mem a (List.mem_cons_self x xs)
    · exact List.mem_cons_of_mem a (List.mem_cons_of_mem x h)

theorem getLastD_cons_mem (b d : ℚ) (m : List ℚ) : (b :: m).getLastD d ∈ b :: m := by
  rw [List.getLastD_cons]
  exact getLastD_default_mem m b

theorem scanSeg_first_hit (c q dflt : ℚ) :
    ∀ (as ps : List ℚ) (rest : List (ℚ × ℚ)),
      as ≠ [] → as.length = ps.length → (∀ a ∈ as, a < c) →
      scanSeg c dflt (as.zip ps ++ (c, q) :: rest) = q := by
  intro as
  induction as with
  | nil => intro ps rest h; exact absurd rfl h
  | cons a as' ih =>
    intro ps rest _ hlen has
    cases ps with
    | nil => simp at hlen
    | cons p ps' =>
      have ha : a < c := has a (List.mem_cons_self a as')
      cases as' with
      | nil =>
        have hps' : ps' = [] := by
          cases ps' with
          | nil => rfl
          | cons _ _ => simp at hlen
        subst hps'
        show scanSeg c dflt ((a, p) :: (c, q) :: rest) = q
        simp only [scanSeg]
        rw [if_pos ⟨le_of_lt ha, le_refl c⟩, if_neg (ne_of_gt ha)]
        rw [div_self (sub_ne_zero.mpr (ne_of_gt ha))]
        ring
      | cons a2 as'' =>
        cases ps' with
        | nil => simp at hlen
        | cons p2 ps'' =>
          have h2 : a2 < c := has a2 (by simp)
          show scanSeg c dflt
            ((a, p) :: (a2, p2) :: (as''.zip ps'' ++ (c, q) :: rest)) = q
          simp only [scanSeg]
          rw [if_neg (fun h => absurd h.2 (not_le.mpr h2))]
          exact ih (p2 :: ps'') rest (by simp) (by simpa using hlen)
            (fun x hx => has x (List.mem_cons_of_mem _ hx))

theorem scanSeg_bracket (xq a b p q dflt : ℚ) (hab : a < b) (hax : a < xq)
    (hxb : xq ≤ b) :
    ∀ (as ps : List ℚ) (rest : List (ℚ × ℚ)),
      as.length = ps.length → (∀ u ∈ as, u < xq) →
      scanSeg xq dflt (as.zip ps ++ (a, p) :: (b, q) :: rest)
        = p + (xq - a) / (b - a) * (q - p) := by
  intro as
  induction as with
  | nil =>
    intro ps rest hlen _
    have hps : ps = [] := List.length_eq_zero.mp hlen.symm
    subst hps
    show scanSeg xq dflt ((a, p) :: (b, q) :: rest) = _
    simp only [scanSeg]
    rw [if_pos ⟨le_of_lt hax, hxb⟩, if_neg (ne_of_gt hab)]
  | cons u as' ih =>
    intro ps rest hlen hu
    cases ps with
    | nil => simp at hlen
    | cons p1 ps' =>
      cases as' with
      | nil =>
        have hps' : ps' = [] := by
          cases ps' with
          | nil => rfl
          | cons _ _ => simp at hlen
        subst hps'
        show scanSeg xq dflt ((u, p1) :: (a, p) :: (b, q) :: rest) = _
        simp only [scanSeg]
        rw [if_neg (fun h => absurd h.2 (not_le.mpr hax))]
        exact ih [] rest rfl (by simp)
      | cons u2 as'' =>
        cases ps' with
        | nil => simp at hlen
        | cons p2 ps'' =>
          have h2 : u2 < xq := hu u2 (by simp)
          show scanSeg xq dflt
            ((u, p1) :: (u2, p2) :: (as''.zip ps'' ++ (a, p) :: (b, q) :: rest)) = _
          simp only [scanSeg]
          rw [if_neg (fun h => absurd h.2 (not_le.mpr h2))]
          exact ih (p2 :: ps'') rest (by simpa using hlen)
            (fun x hx => hu x (List.mem_cons_of_mem _ hx))

theorem thermScanSeg_agree (xq d : ℚ) :
    ∀ (pairs : List (ℚ × ℚ)), (∀ z ∈ pairs.head?, z.1 < xq) →
      thermScanSeg xq (some d) pairs = some (scanSeg xq d pairs) := by
  intro pairs
  induction pairs with
  | nil => intro _; rfl
  | cons z0 tl ih =>
    intro hhd
    rcases z0 with ⟨x0, y0⟩
    cases tl with
    | nil => rfl
    | cons z1 tl' =>
      rcases z1 with ⟨x1, y1⟩
      have hx0 : x0 < xq := hhd (x0, y0) rfl
      by_cases hc : x0 ≤ xq ∧ xq ≤ x1
      · have hne : ¬ x1 = x0 := fun h => absurd (h ▸ hc.2) (not_le.mpr hx0)
        simp only [thermScanSeg, scanSeg]
        rw [if_pos hc, if_pos hc, if_neg hne, if_neg hne]
      · have hx1 : x1 < xq :=
          not_le.mp (fun hle => hc ⟨le_of_lt hx0, hle⟩)
        simp only [thermScanSeg, scanSeg]
        rw [if_neg hc, if_neg hc]
        exact ih (fun z hz => by
          simp only [List.head?_cons, Option.mem_def, Option.some.injEq] at hz
          rw [← hz]
          exact hx1)

theorem interp_agree (xs ys : List ℚ) (xq : ℚ) :
    thermInterp xs ys xq = some (interp xs ys xq) := by
  unfold interp thermInterp
  split_ifs with h1 h2
  · rfl
  · rfl
  · apply thermScanSeg_agree
    intro z hz
    cases xs with
    | nil => simp at hz
    | cons x xs' =>
      cases ys with
      | nil => simp at hz
      | cons y ys' =>
        simp only [List.zip_cons_cons, List.head?_cons, Option.mem_def,
          Option.some.injEq] at hz
        rw [← hz]
        simpa using not_le.mp h1

/-! ### Claim theorems -/

/-- C1: for every state and input, the decision returned by `update` has
`disable = not amp_enabled or tripped` computed from the post-update state,
`amp_enabled`/`tripped` mirroring the post-update state, and `reason` equal to
`last_reason` when tripped and `"OK"` otherwise; `disable` is recomputed from
the state, never stored (it is not a field of `AmpState`). -/
theorem C1_decision_invariant (cfg : Cfg) (s : AmpState) (t : Telemetry)
    (n : Int) (b : Nat) :
    (update cfg s t n b).2.disable
        = (!(update cfg s t n b).1.amp_enabled || (update cfg s t n b).1.tripped) ∧
    (update cfg s t n b).2.amp_enabled = (update cfg s t n b).1.amp_enabled ∧
    (update cfg s t n b).2.tripped = (update cfg s t n b).1.tripped ∧
    (update cfg s t n b).2.reason
        = (if (update cfg s t n b).1.tripped then (update cfg s t n b).1.last_reason
           else "OK") :=
  ⟨rfl, rfl, rfl, rfl⟩

/-- C3: a snapshot exceeding both the drain-voltage and the drain-current
maxima reports `VDRAIN_OV`, never `IDRAIN_OC`; the single recorded reason is
the first matching in the priority order overvoltage, overcurrent,
forward-power-low. -/
theorem C3_fault_priority (cfg : Cfg) (t : Telemetry) :
    (cfg.PROTECT_VDRAIN_MAX_V < t.vDrain.getD 0 →
      fault_reason cfg t = (true, "VDRAIN_OV")) ∧
    (fault_reason cfg t = (true, "IDRAIN_OC") →
      ¬ cfg.PROTECT_VDRAIN_MAX_V < t.vDrain.getD 0 ∧
        cfg.PROTECT_IDRAIN_MAX_A < t.iDrain.getD 0) ∧
    (fault_reason cfg t = (true, "FWD_LOW_VS_VI") →
      ¬ cfg.PROTECT_VDRAIN_MAX_V < t.vDrain.getD 0 ∧
        ¬ cfg.PROTECT_IDRAIN_MAX_A < t.iDrain.getD 0) ∧
    (fault_reason cfg t).2 ∈ (["OK", "VDRAIN_OV", "IDRAIN_OC", "FWD_LOW_VS_VI"] :
      List String) := by
  unfold fault_reason
  dsimp only
  split_ifs <;> simp_all

/-- Witness for C3 at a concrete snapshot exceeding both maxima. -/
theorem C3_fault_priority_witness :
    fault_reason ⟨true, 10, 35, 9, 2, 10, 1/4, 40, 50, 5000⟩
        ⟨some 40, some 12, some 13, some 50, none⟩ = (true, "VDRAIN_OV") :=
  (C3_fault_priority ⟨true, 10, 35, 9, 2, 10, 1/4, 40, 50, 5000⟩
    ⟨some 40, some 12, some 13, some 50, none⟩).1 (by norm_num)

/-- C10: the fast fault evaluator can only return `OK`, `VDRAIN_OV`,
`IDRAIN_OC` or `FWD_LOW_VS_VI` — never `THERM_OT` (the thermal check after
its unconditional `return` is unreachable); `THERM_OT` can become the latched
reason only through the slow-debounce thermal stage of `update`, which
requires an actual over-threshold temperature sample and a not-yet-tripped
latch. -/
theorem C10_thermal_only_slow_path :
    (∀ (cfg : Cfg) (t : Telemetry),
      fault_reason cfg t ∈
        ([(false, "OK"), (true, "VDRAIN_OV"), (true, "IDRAIN_OC"),
          (true, "FWD_LOW_VS_VI")] : List (Bool × String))) ∧
    (∀ (cfg : Cfg) (s : AmpState) (t : Telemetry) (n : Int) (b : Nat),
      (update cfg s t n b).1.last_reason = "THERM_OT" →
      s.last_reason = "THERM_OT" ∨
        (s.tripped = false ∧ ∃ temp, t.temp_c = some temp ∧
          cfg.PROTECT_TEMP_MAX_C ≤ temp)) := by
  refine ⟨fault_reason_cases, ?_⟩
  intro cfg s t n b h
  have hupd : (update cfg s t n b).1
      = stepButton cfg (stepTherm cfg (stepFault cfg s t n) t n) n b := rfl
  rw [hupd] at h
  rcases stepButton_last_reason cfg (stepTherm cfg (stepFault cfg s t n) t n) n b with
    h3 | h3
  · rw [h3] at h
    rcases stepTherm_last_reason cfg (stepFault cfg s t n) t n with h2 | ⟨_, h2t, h2e⟩
    · rw [h2] at h
      rcases stepFault_last_reason cfg s t n with h1 | h1
      · exact Or.inl (h1 ▸ h)
      · exact absurd (h1 ▸ h) (fault_reason_not_therm cfg t)
    · refine Or.inr ⟨?_, h2e⟩
      cases hv : s.tripped
      · rfl
      · have hmono := stepFault_tripped_mono cfg s t n hv
        rw [hmono] at h2t
        simp at h2t
  · rw [h3] at h
    exact absurd h (by decide)

/-- C2: once tripped, any number of updates with button not pressed (clean or
dirty telemetry alike) keeps the latch set; a state that leaves the latch in a
single update did so through a debounced button event, and that clearing press
forces `amp_enabled = false` and resets `last_reason` to `"OK"`. -/
theorem C2_latch_semantics :
    (∀ (cfg : Cfg) (s : AmpState) (inputs : List (Telemetry × Int × Nat)),
      s.tripped = true →
      (∀ p ∈ inputs, btn_is_pressed cfg p.2.2 = false) →
      (runUpdates cfg s inputs).tripped = true) ∧
    (∀ (cfg : Cfg) (s : AmpState) (t : Telemetry) (n : Int) (b : Nat),
      s.tripped = true →
      (update cfg s t n b).1.tripped = false →
      (debounced_button_event cfg (stepTherm cfg (stepFault cfg s t n) t n) n b).2
          = true ∧
        (update cfg s t n b).1.amp_enabled = false ∧
        (update cfg s t n b).1.last_reason = "OK") := by
  constructor
  · intro cfg s inputs
    induction inputs generalizing s with
    | nil => intro hs _; exact hs
    | cons p rest ih =>
      intro hs hnp
      rcases p with ⟨t, n, b⟩
      have hb : btn_is_pressed cfg b = false :=
        hnp (t, n, b) (List.mem_cons_self _ _)
      exact ih (update cfg s t n b).1
        (update_tripped_persists cfg s t n b hs hb)
        (fun q hq => hnp q (List.mem_cons_of_mem _ hq))
  · intro cfg s t n b hs hclear
    have h1 : stepFault cfg s t n = s := stepFault_of_tripped cfg s t n hs
    have h2 : stepTherm cfg s t n = { s with therm_start_ms := none } :=
      stepTherm_of_tripped cfg s t n hs
    have hupd : (update cfg s t n b).1
        = stepButton cfg { s with therm_start_ms := none } n b := by
      unfold update
      dsimp only
      rw [h1, h2]
    have htr1 : (debounced_button_event cfg { s with therm_start_ms := none } n b).1.tripped
        = true := by
      rw [(dbe_preserves cfg { s with therm_start_ms := none } n b).2.1]
      exact hs
    cases hev : (debounced_button_event cfg { s with therm_start_ms := none } n b).2
    · exfalso
      rw [hupd] at hclear
      unfold stepButton at hclear
      dsimp only at hclear
      rw [hev] at hclear
      simp only [Bool.false_eq_true, if_false] at hclear
      rw [htr1] at hclear
      exact absurd hclear (by decide)
    · have hsb : stepButton cfg { s with therm_start_ms := none } n b
          = { (debounced_button_event cfg { s with therm_start_ms := none } n b).1 with
              tripped := false, last_reason := "OK", fault_start_ms := none,
              therm_start_ms := none, amp_enabled := false } := by
        unfold stepButton
        dsimp only
        rw [hev, htr1]
        simp
      refine ⟨?_, ?_, ?_⟩
      · rw [h1, h2]
        exact hev
      · rw [hupd, hsb]
      · rw [hupd, hsb]

/-- Witness for C2: a tripped state stays tripped over three no-press updates,
and a concrete debounced clearing press leaves the amp disabled with reason
`"OK"`. -/
theorem C2_latch_semantics_witness :
    (runUpdates ⟨true, 10, 35, 9, 2, 10, 1/4, 40, 50, 5000⟩
        ⟨true, true, "VDRAIN_OV", none, none, some 1, 0, false⟩
        [(⟨some 1, some 1, some 13, some 40, none⟩, 100, 1),
         (⟨some 1, some 1, some 13, some 40, none⟩, 200, 1),
         (⟨some 1, some 1, some 13, some 40, none⟩, 300, 1)]).tripped = true ∧
    (update ⟨true, 10, 35, 9, 2, 10, 1/4, 40, 50, 5000⟩
        ⟨true, true, "VDRAIN_OV", none, none, some 0, 0, false⟩
        ⟨some 1, some 1, some 13, some 40, none⟩ 50 0).1.amp_enabled = false ∧
    (update ⟨true, 10, 35, 9, 2, 10, 1/4, 40, 50, 5000⟩
        ⟨true, true, "VDRAIN_OV", none, none, some 0, 0, false⟩
        ⟨some 1, some 1, some 13, some 40, none⟩ 50 0).1.last_reason = "OK" := by
  refine ⟨C2_latch_semantics.1 _ _ _ rfl (by decide), ?_, ?_⟩
  · exact (C2_latch_semantics.2 _ _ _ _ _ rfl (by decide)).2.1
  · exact (C2_latch_semantics.2 _ _ _ _ _ rfl (by decide)).2.2

/-- C4: the debounced one-shot button. A level that differs from the remembered
level on every tick never produces an event (regardless of how long this goes
on); from a settled level, a press held stable at the active polarity produces
exactly one event as soon as some tick arrives a full debounce interval after
the change; with the press consumed, arbitrarily many further held-active
ticks produce no additional event. -/
theorem C4_button_one_shot :
    (∀ (cfg : Cfg) (s : AmpState) (l0 : Nat) (inputs : List (Int × Nat)),
      s.btn_last_level = some l0 →
      List.Chain Ne l0 (inputs.map Prod.snd) →
      (runBtn cfg s inputs).2 = 0) ∧
    (∀ (cfg : Cfg) (s : AmpState) (l0 la : Nat) (t0 : Int)
        (rest : List (Int × Nat)),
      s.btn_last_level = some l0 → la ≠ l0 →
      btn_is_pressed cfg la = true →
      (∀ p ∈ rest, p.2 = la) →
      (∃ p ∈ rest, cfg.RESET_DEBOUNCE_MS ≤ p.1 - t0) →
      (runBtn cfg s ((t0, la) :: rest)).2 = 1) ∧
    (∀ (cfg : Cfg) (s : AmpState) (la : Nat) (inputs : List (Int × Nat)),
      s.btn_last_level = some la → s.btn_press_consumed = true →
      btn_is_pressed cfg la = true →
      (∀ p ∈ inputs, p.2 = la) →
      (runBtn cfg s inputs).2 = 0) := by
  refine ⟨?_, ?_, ?_⟩
  · intro cfg s l0 inputs h1 hch
    exact runBtn_alternating cfg inputs s l0 h1 hch
  · intro cfg s l0 la t0 rest h1 hne hp hall hex
    show (runBtn cfg s ((t0, la) :: rest)).2 = 1
    unfold runBtn
    rw [dbe_change cfg s t0 la l0 h1 hne]
    dsimp only
    have hrec : (runBtn cfg { s with btn_last_level := some la, btn_last_change_ms := t0, btn_press_consumed := false } rest).2 = 1 :=
      runBtn_waiting cfg la rest _ rfl rfl hp hall hex
    rw [hrec]
    simp
  · intro cfg s la inputs h1 h2 h3 hall
    rw [runBtn_held_consumed cfg la inputs s h1 h2 h3 hall]

/-- Witness for C4: concrete runs of the button machine — an alternating level
yields 0 events, a held press past the 10 ms debounce yields exactly 1 event
even over further ticks, and a consumed press yields 0. -/
theorem C4_button_one_shot_witness :
    (runBtn ⟨true, 10, 35, 9, 2, 10, 1/4, 40, 50, 5000⟩
        ⟨false, false, "OK", none, none, some 1, 0, false⟩
        [(0, 0), (3, 1), (6, 0), (9, 1)]).2 = 0 ∧
    (runBtn ⟨true, 10, 35, 9, 2, 10, 1/4, 40, 50, 5000⟩
        ⟨false, false, "OK", none, none, some 1, 0, false⟩
        [(0, 0), (5, 0), (12, 0), (40, 0), (100, 0)]).2 = 1 ∧
    (runBtn ⟨true, 10, 35, 9, 2, 10, 1/4, 40, 50, 5000⟩
        ⟨false, false, "OK", none, none, some 0, 0, true⟩
        [(100, 0), (200, 0), (300, 0)]).2 = 0 := by
  refine ⟨?_, ?_, ?_⟩
  · exact C4_button_one_shot.1 _ _ 1 _ rfl (by norm_num [List.chain_cons])
  · exact C4_button_one_shot.2.1 _ _ 1 0 0 [(5, 0), (12, 0), (40, 0), (100, 0)]
      rfl (by decide) (by decide) (by decide) (by decide)
  · exact C4_button_one_shot.2.2 _ _ 0 _ rfl rfl (by decide) (by decide)

/-- Witness for C10: the fault evaluator at a concrete snapshot, and a
concrete sustained-overtemperature update that latches `THERM_OT`, for which
the theorem yields the thermal-stage disjunct. -/
theorem C10_thermal_only_slow_path_witness :
    fault_reason ⟨true, 10, 35, 9, 2, 10, 1/4, 40, 50, 5000⟩
        ⟨some 40, some 1, some 13, some 40, some 50⟩ ∈
      ([(false, "OK"), (true, "VDRAIN_OV"), (true, "IDRAIN_OC"),
        (true, "FWD_LOW_VS_VI")] : List (Bool × String)) ∧
    ((⟨false, false, "OK", none, some 0, some 1, 0, false⟩ : AmpState).last_reason
        = "THERM_OT" ∨
      ((⟨false, false, "OK", none, some 0, some 1, 0, false⟩ : AmpState).tripped
          = false ∧
        ∃ temp, (⟨some 1, some 1, some 13, some 40, some 50⟩ :
            Telemetry).temp_c = some temp ∧
          (⟨true, 10, 35, 9, 2, 10, 1/4, 40, 50, 5000⟩ :
            Cfg).PROTECT_TEMP_MAX_C ≤ temp)) :=
  ⟨C10_thermal_only_slow_path.1 _ _,
   C10_thermal_only_slow_path.2 ⟨true, 10, 35, 9, 2, 10, 1/4, 40, 50, 5000⟩
     ⟨false, false, "OK", none, some 0, some 1, 0, false⟩
     ⟨some 1, some 1, some 13, some 40, some 50⟩ 5000 1 (by decide)⟩

/-- C7: `update` never fails; missing numeric telemetry keys behave exactly
like the value `0.0`, and a missing temperature makes the thermal stage see
"no thermal fault" (it just resets the thermal debounce timer). -/
theorem C7_missing_keys_default :
    (∀ (cfg : Cfg) (s : AmpState) (t : Telemetry) (n : Int) (b : Nat),
      update cfg s t n b = update cfg s (fillDefaults t) n b) ∧
    (∀ (cfg : Cfg) (s : AmpState) (t : Telemetry) (n : Int),
      t.temp_c = none → stepTherm cfg s t n = { s with therm_start_ms := none }) := by
  constructor
  · intro cfg s t n b
    have hfr : fault_reason cfg (fillDefaults t) = fault_reason cfg t := by
      unfold fault_reason fillDefaults
      simp
    have hsf : ∀ s', stepFault cfg s' (fillDefaults t) n = stepFault cfg s' t n := by
      intro s'
      unfold stepFault
      rw [hfr]
    have hst : ∀ s', stepTherm cfg s' (fillDefaults t) n = stepTherm cfg s' t n := by
      intro s'
      unfold stepTherm fillDefaults
      simp
    unfold update
    rw [hsf, hst]
  · intro cfg s t n h
    unfold stepTherm
    rw [h]
    split_ifs <;> rfl

/-- Witness for C7: a concrete all-keys-missing snapshot behaves like the
all-zero snapshot, and its thermal stage only clears the timer. -/
theorem C7_missing_keys_default_witness :
    update ⟨true, 10, 35, 9, 2, 10, 1/4, 40, 50, 5000⟩
        ⟨false, false, "OK", none, none, none, 0, false⟩
        ⟨none, none, none, none, none⟩ 0 1
      = update ⟨true, 10, 35, 9, 2, 10, 1/4, 40, 50, 5000⟩
        ⟨false, false, "OK", none, none, none, 0, false⟩
        (fillDefaults ⟨none, none, none, none, none⟩) 0 1 ∧
    stepTherm ⟨true, 10, 35, 9, 2, 10, 1/4, 40, 50, 5000⟩
        ⟨false, false, "OK", none, none, none, 0, false⟩
        ⟨none, none, none, none, none⟩ 0
      = { (⟨false, false, "OK", none, none, none, 0, false⟩ : AmpState) with
          therm_start_ms := none } :=
  ⟨C7_missing_keys_default.1 _ _ _ _ _, C7_missing_keys_default.2 _ _ _ _ rfl⟩

/-- C9: both interpolator implementations agree; for a table whose knots are
split as a strictly-below prefix, the knot, and a strictly-above suffix
(i.e. the table is ascending through the knot), evaluation at the knot's x
returns exactly that knot's y; evaluation at or below the minimum x returns
the minimum knot's y and at or above the maximum x the maximum knot's y
(clamping); and a query exactly halfway between two adjacent distinct knots
returns the arithmetic mean of their y values. -/
theorem C9_interp_knots_clamps_midpoint :
    (∀ (xs ys : List ℚ) (xq : ℚ), thermInterp xs ys xq = some (interp xs ys xq)) ∧
    (∀ (xs ys : List ℚ) (xq : ℚ), xq ≤ xs.headD 0 →
      interp xs ys xq = ys.headD 0) ∧
    (∀ (xs ys : List ℚ) (xq : ℚ), xs.headD 0 < xq → xs.getLastD 0 ≤ xq →
      interp xs ys xq = ys.getLastD 0) ∧
    (∀ (as ps bs qs : List ℚ) (c q : ℚ), as.length = ps.length →
      bs.length = qs.length → (∀ a ∈ as, a < c) → (∀ b ∈ bs, c < b) →
      interp (as ++ c :: bs) (ps ++ q :: qs) c = q) ∧
    (∀ (as ps bs qs : List ℚ) (a b p q : ℚ), as.length = ps.length →
      (∀ u ∈ as, u < a) → a < b → (∀ u ∈ bs, b ≤ u) →
      interp (as ++ a :: b :: bs) (ps ++ p :: q :: qs) ((a + b) / 2)
        = (p + q) / 2) := by
  refine ⟨interp_agree, ?_, ?_, ?_, ?_⟩
  · intro xs ys xq h
    unfold interp
    rw [if_pos h]
  · intro xs ys xq h1 h2
    unfold interp
    rw [if_neg (not_le.mpr h1), if_pos h2]
  · intro as ps bs qs c q hlen hlen2 has hbs
    cases as with
    | nil =>
      have hps : ps = [] := List.length_eq_zero.mp hlen.symm
      subst hps
      unfold interp
      simp only [List.nil_append, List.headD_cons]
      rw [if_pos (le_refl c)]
    | cons a as' =>
      cases ps with
      | nil => simp at hlen
      | cons p ps' =>
        unfold interp
        rw [if_neg (by simpa using not_le.mpr (has a (List.mem_cons_self a as')))]
        cases bs with
        | nil =>
          have hqs : qs = [] := List.length_eq_zero.mp hlen2.symm
          subst hqs
          rw [if_pos (by rw [getLastD_append_cons]; exact le_refl c)]
          rw [getLastD_append_cons]
          rfl
        | cons b bs' =>
          have hlast : c < ((a :: as') ++ c :: b :: bs').getLastD 0 := by
            rw [getLastD_append_cons]
            rcases List.mem_cons.mp (getLastD_cons_mem b c bs') with h | h
            · rw [h]
              exact hbs b (List.mem_cons_self b bs')
            · exact hbs _ (List.mem_cons_of_mem b h)
          rw [if_neg (not_le.mpr hlast)]
          cases qs with
          | nil => simp at hlen2
          | cons q1 qs' =>
            rw [List.zip_append hlen, List.zip_cons_cons]
            exact scanSeg_first_hit c q _ (a :: as') (p :: ps') _ (by simp) hlen has
  · intro as ps bs qs a b p q hlen has hab hbs
    have hax : a < (a + b) / 2 := by linarith
    have hxb : (a + b) / 2 < b := by linarith
    unfold interp
    rw [if_neg ?hlow, if_neg ?hhigh]
    case hlow =>
      cases as with
      | nil =>
        simp only [List.nil_append, List.headD_cons]
        exact not_le.mpr hax
      | cons u as' =>
        simp only [List.cons_append, List.headD_cons]
        exact not_le.mpr (lt_trans (has u (List.mem_cons_self u as')) hax)
    case hhigh =>
      rw [getLastD_append_cons]
      rcases List.mem_cons.mp (getLastD_cons_mem b a bs) with h | h
      · rw [h]
        exact not_le.mpr hxb
      · exact not_le.mpr (lt_of_lt_of_le hxb (hbs _ h))
    rw [List.zip_append hlen, List.zip_cons_cons, List.zip_cons_cons]
    rw [scanSeg_bracket ((a + b) / 2) a b p q _ hab hax (le_of_lt hxb) as ps _
      hlen (fun u hu => lt_trans (has u hu) hax)]
    have hba : b - a ≠ 0 := sub_ne_zero.mpr (ne_of_gt hab)
    field_simp
    ring

/-- Witness for C9 at concrete tables: the two implementations agree on a
3-knot table, the interior knot evaluates to its own y, queries outside the
range clamp, and the midpoint of `[0,2] → [1,5]` evaluates to 3. -/
theorem C9_interp_witness :
    thermInterp [0, 2, 4] [1, 5, 9] 2 = some (interp [0, 2, 4] [1, 5, 9] 2) ∧
    interp [0, 2, 4] [1, 5, 9] 2 = 5 ∧
    interp [0, 2] [1, 5] (-1) = 1 ∧
    interp [0, 2] [1, 5] 7 = 5 ∧
    interp [0, 2] [1, 5] 1 = 3 := by
  refine ⟨C9_interp_knots_clamps_midpoint.1 _ _ _, ?_, ?_, ?_, ?_⟩
  · exact C9_interp_knots_clamps_midpoint.2.2.2.1 [0] [1] [4] [9] 2 5 rfl rfl
      (by norm_num) (by norm_num)
  · exact C9_interp_knots_clamps_midpoint.2.1 [0, 2] [1, 5] (-1) (by norm_num)
  · exact C9_interp_knots_clamps_midpoint.2.2.1 [0, 2] [1, 5] 7 (by norm_num)
      (by norm_num)
  · have h := C9_interp_knots_clamps_midpoint.2.2.2.2 [] [] [] [] 0 2 1 5 rfl
      (by simp) (by norm_num) (by simp)
    norm_num at h
    exact h

/-- C6 counterexample to the claim as stated: the sorted table
x = [0, 1, 1], y = [0, 4, 9] has the degenerate segment (x1, x2) = (1, 1)
with y0 = 4; the only query inside that segment is 1, but both
implementations return 9 (the top clamp fires because the degenerate
segment sits at the maximum x), not the segment's y0 = 4. -/
theorem C6_degenerate_counterexample :
    interp [0, 1, 1] [0, 4, 9] 1 = 9 ∧
    thermInterp [0, 1, 1] [0, 4, 9] 1 = some 9 ∧ (9 : ℚ) ≠ 4 := by
  refine ⟨?_, ?_, by norm_num⟩ <;> rfl

/-- C6 (amended): neither implementation ever divides by zero — the
thermistor interpolator (which has no degenerate-segment guard) never reaches
the division with `x1 == x0` (`isSome` holds always, `none` modelling the
`ZeroDivisionError`), and on any table, a query inside a degenerate segment
whose left knot is the first knot with that x value and whose x lies strictly
below the table's maximum x returns that segment's y0, in both
implementations. -/
theorem C6_degenerate_segments :
    (∀ (xs ys : List ℚ) (xq : ℚ), (thermInterp xs ys xq).isSome = true) ∧
    (∀ (as ps qs bs : List ℚ) (c y0 y1 : ℚ), as.length = ps.length →
      (∀ a ∈ as, a < c) → c < (as ++ c :: c :: bs).getLastD 0 →
      interp (as ++ c :: c :: bs) (ps ++ y0 :: y1 :: qs) c = y0 ∧
      thermInterp (as ++ c :: c :: bs) (ps ++ y0 :: y1 :: qs) c = some y0) := by
  constructor
  · intro xs ys xq
    rw [interp_agree]
    rfl
  · intro as ps qs bs c y0 y1 hlen has hlast
    have hmain : interp (as ++ c :: c :: bs) (ps ++ y0 :: y1 :: qs) c = y0 := by
      cases as with
      | nil =>
        have hps : ps = [] := List.length_eq_zero.mp hlen.symm
        subst hps
        unfold interp
        simp only [List.nil_append, List.headD_cons]
        rw [if_pos (le_refl c)]
      | cons a as' =>
        cases ps with
        | nil => simp at hlen
        | cons p ps' =>
          unfold interp
          rw [if_neg (by simpa using not_le.mpr (has a (List.mem_cons_self a as')))]
          rw [if_neg (not_le.mpr hlast)]
          rw [List.zip_append hlen, List.zip_cons_cons]
          exact scanSeg_first_hit c y0 _ (a :: as') (p :: ps') _ (by simp) hlen has
    exact ⟨hmain, by rw [interp_agree, hmain]⟩

/-- Witness for C6 (amended): on the table x = [0, 1, 1, 2], y = [10, 5, 6, 7]
(one degenerate segment strictly inside the range), the query 1 returns the
degenerate segment's y0 = 5 in both implementations. -/
theorem C6_degenerate_segments_witness :
    interp [0, 1, 1, 2] [10, 5, 6, 7] 1 = 5 ∧
    thermInterp [0, 1, 1, 2] [10, 5, 6, 7] 1 = some 5 ∧
    (thermInterp [0, 1, 1, 2] [10, 5, 6, 7] 1).isSome = true := by
  have h := C6_degenerate_segments.2 [0] [10] [7] [2] 1 5 6 rfl
    (by norm_num) (by norm_num [getLastD_append_cons])
  exact ⟨h.1, h.2, C6_degenerate_segments.1 _ _ _⟩

/-- C5: the SWR function returns +infinity (`none`) for non-positive forward
power; for positive forward power and non-negative reflected power it returns
+infinity when the power ratio reaches 1, and otherwise
`(1 + gamma) / (1 - gamma)` with `gamma = sqrt(prfl/pfwd)` guarded to
+infinity when `1 - gamma ≤ 0`; in particular `swr(100, 0) = 1` and
`swr(100, 100) = +infinity`. -/
theorem C5_swr_from_powers :
    (∀ pf pr : ℝ, pf ≤ 0 → swr_from_powers pf pr = none) ∧
    (∀ pf pr : ℝ, 0 < pf → 0 ≤ pr → 1 ≤ pr / pf → swr_from_powers pf pr = none) ∧
    (∀ pf pr : ℝ, 0 < pf → 0 ≤ pr → pr / pf < 1 →
      swr_from_powers pf pr =
        if 1 - Real.sqrt (pr / pf) ≤ 0 then none
        else some ((1 + Real.sqrt (pr / pf)) / (1 - Real.sqrt (pr / pf)))) ∧
    swr_from_powers 100 0 = some 1 ∧
    swr_from_powers 100 100 = none := by
  refine ⟨?_, ?_, ?_, ?_, ?_⟩
  · intro pf pr h
    unfold swr_from_powers
    rw [if_pos h]
  · intro pf pr h1 h2 h3
    unfold swr_from_powers
    dsimp only
    rw [if_neg (not_le.mpr h1), if_neg (not_lt.mpr h2), if_pos h3]
  · intro pf pr h1 h2 h3
    unfold swr_from_powers
    dsimp only
    rw [if_neg (not_le.mpr h1), if_neg (not_lt.mpr h2), if_neg (not_le.mpr h3)]
  · unfold swr_from_powers
    dsimp only
    rw [if_neg (show ¬(100 : ℝ) ≤ 0 by norm_num),
      if_neg (show ¬(0 : ℝ) < 0 by norm_num)]
    norm_num [Real.sqrt_zero]
  · unfold swr_from_powers
    dsimp only
    rw [if_neg (show ¬(100 : ℝ) ≤ 0 by norm_num),
      if_neg (show ¬(100 : ℝ) < 0 by norm_num),
      if_pos (show (1 : ℝ) ≤ 100 / 100 by norm_num)]

/-- Witness for C5 at concrete powers: zero forward power yields +infinity and
full reflection yields +infinity. -/
theorem C5_swr_from_powers_witness :
    swr_from_powers 0 5 = none ∧ swr_from_powers 100 100 = none :=
  ⟨C5_swr_from_powers.1 0 5 le_rfl, C5_swr_from_powers.2.2.2.2⟩

/-- C8 counterexample to the claim as stated: at data rate code `0x00C0`
(475 SPS) and the default 100 ms window, `475 * 100 / 1000 = 47.5`; the code's
`int(...)` truncation draws 47 samples, while the spec's
`round(rate * window_ms / 1000)` gives 48. -/
theorem C8_sample_count_counterexample :
    (read_avg_volts 0x00C0 (fun _ => 0) (fun _ => 0) 100).2.2 = 47 ∧
    sampleCountSpec 0x00C0 100 = 48 ∧ (47 : Nat) ≠ 48 := by
  refine ⟨rfl, ?_, by norm_num⟩
  have h1 : ((DR_SPS 0x00C0).getD 128) = 475 := rfl
  unfold sampleCountSpec
  rw [h1]
  norm_num [round_eq]
  rfl

theorem readLoop_eq_sum (f r : Nat → ℚ) :
    ∀ k : Nat, readLoop f r k = (∑ i in Finset.range k, f i, ∑ i in Finset.range k, r i) := by
  intro k
  induction k with
  | zero => simp [readLoop]
  | succ m ih =>
    unfold readLoop
    rw [ih]
    dsimp only
    rw [Finset.sum_range_succ, Finset.sum_range_succ]

/-- C8 (amended): the sample count is `floor(rate * window_ms / 1000)`
(truncating integer division, not rounding), floored to a minimum of 1, and
`read_avg_volts` draws and arithmetic-means exactly that many forward and
reflected readings. -/
theorem C8_sample_count_floor (dr w : Nat) (f r : Nat → ℚ) :
    read_avg_volts dr f r w =
      ((∑ i in Finset.range (max 1 ((DR_SPS dr).getD 128 * w / 1000)), f i)
          / (max 1 ((DR_SPS dr).getD 128 * w / 1000) : Nat),
       (∑ i in Finset.range (max 1 ((DR_SPS dr).getD 128 * w / 1000)), r i)
          / (max 1 ((DR_SPS dr).getD 128 * w / 1000) : Nat),
       max 1 ((DR_SPS dr).getD 128 * w / 1000)) ∧
    1 ≤ max 1 ((DR_SPS dr).getD 128 * w / 1000) := by
  have hn : (if (DR_SPS dr).getD 128 * w / 1000 < 1 then 1
      else (DR_SPS dr).getD 128 * w / 1000)
      = max 1 ((DR_SPS dr).getD 128 * w / 1000) := by
    rcases Nat.lt_or_ge ((DR_SPS dr).getD 128 * w / 1000) 1 with h | h
    · rw [if_pos h]
      omega
    · rw [if_neg (not_lt.mpr h)]
      omega
  constructor
  · unfold read_avg_volts
    dsimp only
    rw [hn, readLoop_eq_sum]
  · exact Nat.le_max_left _ _

end LDMosAmp
